import Mathlib

/-!
Shallow embedding of `src/lib/ts/BaseLogFile.{h,cc}` (Apache Traffic Server's
`BaseLogFile` / `BaseMetaInfo`), together with proofs about the embedded
operations.

Modelling conventions:
* C strings and paths are `List Char`; file contents are lists of lines
  (each line carries its trailing newline, as produced by `snprintf`
  "... \n" and consumed by `ink_file_fd_readline`).
* The filesystem visible to the metafile code is a partial map from paths to
  line lists (`FS`).  The OS-level `open(2)` on the primary log file is an
  oracle carried in `Env` (`osOpen`): `some fd` on success, `none` on failure.
* `ink_release_assert` firing is modelled as `Option.none` results.
* Helper code that is not part of `src/` (`SimpleTokenizer`,
  `ink_file_fd_readline`, `ink_atoi64`) is modelled from the spec: lines have
  the shape `key = value`, tokens are the nonempty `=`-separated chunks with
  surrounding whitespace trimmed, values are parsed as decimal integers.
-/

/-- Whitespace test on characters (space, tab, newline, carriage return),
stated on `Char.toNat` so that proofs reduce to `Nat` arithmetic. -/
def isSpaceB (c : Char) : Bool :=
  decide (c.toNat = 32) || decide (c.toNat = 9) || decide (c.toNat = 10) || decide (c.toNat = 13)

/-- Decimal digit test on characters, stated on `Char.toNat`. -/
def isDigitB (c : Char) : Bool :=
  decide (48 ≤ c.toNat) && decide (c.toNat ≤ 57)

/-- Strip leading and trailing whitespace from a character list. -/
def trim (l : List Char) : List Char :=
  ((l.dropWhile isSpaceB).reverse.dropWhile isSpaceB).reverse

/-- Split a character list at every occurrence of `sep` (the separator itself
is dropped); always returns at least one (possibly empty) chunk. -/
def splitOnChar (sep : Char) : List Char → List (List Char)
  | [] => [[]]
  | c :: cs =>
    match splitOnChar sep cs with
    | [] => [[]]
    | h :: t => if c = sep then [] :: h :: t else (c :: h) :: t

/-- Modelled from the spec: `SimpleTokenizer` with delimiter `=` (missing from
`src/`); a metafile line of shape `key = value` tokenizes into the nonempty
whitespace-trimmed chunks between `=` separators. -/
def tokens (line : List Char) : List (List Char) :=
  ((splitOnChar '=' line).map trim).filter (fun t => !t.isEmpty)

/-- Numeric value of a digit character. -/
def charVal (c : Char) : Nat := c.toNat - 48

/-- Modelled from the spec: `ink_atoi64` (missing from `src/`); parses the
leading run of decimal digits of a token as a nonnegative integer. -/
def atoi (l : List Char) : Nat :=
  (l.takeWhile isDigitB).foldl (fun a c => 10 * a + charVal c) 0

/-- The character printed for a single decimal digit. -/
def digitChar : Nat → Char
  | 0 => '0'
  | 1 => '1'
  | 2 => '2'
  | 3 => '3'
  | 4 => '4'
  | 5 => '5'
  | 6 => '6'
  | 7 => '7'
  | 8 => '8'
  | _ => '9'

/-- Fuel-driven accumulator loop printing `n` in decimal (most significant
digit first); `fuel ≥ n` suffices for full evaluation. -/
def natToStrAux : Nat → Nat → List Char → List Char
  | 0, _, acc => acc
  | fuel + 1, n, acc => if n = 0 then acc else natToStrAux fuel (n / 10) (digitChar (n % 10) :: acc)

/-- Decimal rendering of a nonnegative integer, as printed by
`snprintf` with `%lu` / `PRIu64`. -/
def natToStr (n : Nat) : List Char :=
  if n = 0 then ['0'] else natToStrAux n n []

/-- The filesystem as seen by the metafile code: a partial map from path to
file content (a list of lines, each with its trailing newline). -/
def FS : Type := List Char → Option (List (List Char))

/-- Point update of a filesystem (the effect of `open(..., O_CREAT|O_TRUNC)`
followed by writes). -/
def updateFS (fs : FS) (k : List Char) (v : List (List Char)) : FS :=
  fun k' => if k' = k then some v else fs k'

/-- The empty filesystem. -/
def emptyFS : FS := fun _ => none

/-- Flag bit `DATA_FROM_METAFILE` of `BaseMetaInfo`. -/
def DATA_FROM_METAFILE : Nat := 1

/-- Flag bit `VALID_CREATION_TIME` of `BaseMetaInfo`. -/
def VALID_CREATION_TIME : Nat := 2

/-- Flag bit `VALID_SIGNATURE` of `BaseMetaInfo`. -/
def VALID_SIGNATURE : Nat := 4

/-- Flag bit `FILE_OPEN_SUCCESSFUL` of `BaseMetaInfo`. -/
def FILE_OPEN_SUCCESSFUL : Nat := 8

/-- Constant `BaseMetaInfo::BUF_SIZE`, the size of the metafile read/write buffer. -/
def BUF_SIZE : Nat := 640

/-- Constant `LOGFILE_ROLLED_EXTENSION`, the fixed suffix of rolled log files. -/
def LOGFILE_ROLLED_EXTENSION : List Char := ".old".toList

/-- The sentinel log name bound to standard output. -/
def stdoutName : List Char := "stdout".toList

/-- Constant `STDOUT_FILENO`. -/
def STDOUT_FILENO : Int := 1

/-- Constant `BaseLogFile::LOG_FILE_NO_ERROR`. -/
def LOG_FILE_NO_ERROR : Nat := 0

/-- Constant `BaseLogFile::LOG_FILE_COULD_NOT_OPEN_FILE`. -/
def LOG_FILE_COULD_NOT_OPEN_FILE : Nat := 1

/-- State of a `BaseMetaInfo` object.  In the C++ source `_creation_time` and
`_log_object_signature` are uninitialized until assigned and are only ever
observed under their validity flag; the model initializes them to `0`. -/
structure BaseMetaInfo where
  _filename : List Char
  _creation_time : Nat
  _log_object_signature : Nat
  _flags : Nat
deriving DecidableEq

/-- Loop of `BaseMetaInfo::_build_name`: index of the last `/` in the
filename (`i` stays `-1`, modelled as `none`, when there is none). -/
def lastSlashAux : List Char → Nat → Option Nat → Option Nat
  | [], _, acc => acc
  | c :: cs, l, acc => lastSlashAux cs (l + 1) (if c = '/' then some l else acc)

/-- Index of the last `/` in a filename, if any. -/
def lastSlash (f : List Char) : Option Nat := lastSlashAux f 0 none

/-- Model of `BaseMetaInfo::_build_name`: derive the sidecar metafile name by
prefixing the final path component with `.` and appending `.meta`. -/
def build_name (filename : List Char) : List Char :=
  match lastSlash filename with
  | none => '.' :: (filename ++ ".meta".toList)
  | some i => filename.take (i + 1) ++ ('.' :: (filename.drop (i + 1) ++ ".meta".toList))

/-- Body of the read loop of `BaseMetaInfo::_read_from_file` for one line:
recognize `creation_time` and `object_signature` keys, record their values,
and fire `ink_release_assert` (result `none`) on an unrecognized first token
of the first line. -/
def processLine (m : BaseMetaInfo) (lineNo : Nat) (line : List Char) : Option BaseMetaInfo :=
  match tokens line with
  | [] => some m
  | t :: rest =>
    if t = "creation_time".toList then
      match rest with
      | [] => some m
      | v :: _ => some { m with _creation_time := atoi v, _flags := m._flags ||| VALID_CREATION_TIME }
    else if t = "object_signature".toList then
      match rest with
      | [] => some m
      | v :: _ =>
        some { m with _log_object_signature := atoi v, _flags := m._flags ||| VALID_SIGNATURE }
    else if lineNo = 1 then none
    else some m

/-- The `while (ink_file_fd_readline ...)` loop of
`BaseMetaInfo::_read_from_file`, starting at line number `lineNo`. -/
def readLoop (m : BaseMetaInfo) (lineNo : Nat) : List (List Char) → Option BaseMetaInfo
  | [] => some m
  | line :: rest =>
    match processLine m lineNo line with
    | none => none
    | some m' => readLoop m' (lineNo + 1) rest

/-- Model of `BaseMetaInfo::_read_from_file`: mark the read attempt, open the metafile
(failure is non-fatal), and parse its lines from line number 1. -/
def read_from_file (m0 : BaseMetaInfo) (fs : FS) : Option BaseMetaInfo :=
  let m1 := { m0 with _flags := m0._flags ||| DATA_FROM_METAFILE }
  match fs m1._filename with
  | none => some m1
  | some lines => readLoop { m1 with _flags := m1._flags ||| FILE_OPEN_SUCCESSFUL } 1 lines

/-- The line `snprintf(_buffer, BUF_SIZE, "creation_time = %lu\n", ...)`. -/
def ctLine (t : Nat) : List Char := "creation_time = ".toList ++ natToStr t ++ ['\n']

/-- The line `snprintf(_buffer, BUF_SIZE, "object_signature = %" PRIu64 "\n", ...)`. -/
def osLine (sgn : Nat) : List Char := "object_signature = ".toList ++ natToStr sgn ++ ['\n']

/-- The lines emitted by `BaseMetaInfo::_write_to_file`: one per valid field,
`creation_time` first, then `object_signature`. -/
def serializeLines (m : BaseMetaInfo) : List (List Char) :=
  (if m._flags &&& VALID_CREATION_TIME ≠ 0 then [ctLine m._creation_time] else []) ++
    (if m._flags &&& VALID_SIGNATURE ≠ 0 then [osLine m._log_object_signature] else [])

/-- Model of `BaseMetaInfo::_write_to_file`: truncate/create the sidecar file and write
the serialized lines (the `open(..., O_WRONLY|O_CREAT|O_TRUNC, 0644)` on the
modelled filesystem always succeeds). -/
def write_to_file (m : BaseMetaInfo) (fs : FS) : FS :=
  updateFS fs m._filename (serializeLines m)

/-- The read-mode constructor `BaseMetaInfo(const char *filename)`:
`_flags = 0`, `_build_name`, `_read_from_file`.  `none` models the
`ink_release_assert` in the parser firing. -/
def BaseMetaInfo.mkRead (filename : List Char) (fs : FS) : Option BaseMetaInfo :=
  read_from_file
    { _filename := build_name filename, _creation_time := 0, _log_object_signature := 0,
      _flags := 0 } fs

/-- The write-mode constructor `BaseMetaInfo(char *filename, time_t creation,
uint64_t signature)`: both validity flags set, `_build_name`,
`_write_to_file`; returns the object and the updated filesystem. -/
def BaseMetaInfo.mkWrite (filename : List Char) (creation sgn : Nat) (fs : FS) :
    BaseMetaInfo × FS :=
  let m : BaseMetaInfo :=
    { _filename := build_name filename, _creation_time := creation,
      _log_object_signature := sgn, _flags := VALID_CREATION_TIME ||| VALID_SIGNATURE }
  (m, write_to_file m fs)

/-- Model of `BaseMetaInfo::get_creation_time` (bool + out-parameter, rendered as
`Option`). -/
def BaseMetaInfo.get_creation_time (m : BaseMetaInfo) : Option Nat :=
  if m._flags &&& VALID_CREATION_TIME ≠ 0 then some m._creation_time else none

/-- Model of `BaseMetaInfo::get_log_object_signature` (bool + out-parameter, rendered
as `Option`). -/
def BaseMetaInfo.get_log_object_signature (m : BaseMetaInfo) : Option Nat :=
  if m._flags &&& VALID_SIGNATURE ≠ 0 then some m._log_object_signature else none

/-- Model of `BaseMetaInfo::data_from_metafile`. -/
def BaseMetaInfo.data_from_metafile (m : BaseMetaInfo) : Bool :=
  m._flags &&& DATA_FROM_METAFILE ≠ 0

/-- Model of `BaseMetaInfo::file_open_successful`. -/
def BaseMetaInfo.file_open_successful (m : BaseMetaInfo) : Bool :=
  m._flags &&& FILE_OPEN_SUCCESSFUL ≠ 0

/-- State of a `BaseLogFile` object (`m_fd = -1` is the closed sentinel). -/
structure BaseLogFile where
  m_fd : Int
  m_start_time : Int
  m_end_time : Int
  m_bytes_written : Nat
  m_name : List Char
  m_signature : Nat
  m_is_bootstrap : Bool
  m_meta_info : Option BaseMetaInfo
deriving DecidableEq

/-- The constructor `BaseLogFile(const char *name, bool is_bootstrap)`.  The
C++ constructor leaves `m_signature` uninitialized; the model takes the
indeterminate value as the parameter `sigJunk`. -/
def BaseLogFile.mkNew (name : List Char) (is_bootstrap : Bool) (sigJunk : Nat) : BaseLogFile :=
  { m_fd := -1, m_start_time := 0, m_end_time := 0, m_bytes_written := 0, m_name := name,
    m_signature := sigJunk, m_is_bootstrap := is_bootstrap, m_meta_info := none }

/-- The copy constructor `BaseLogFile(const BaseLogFile &)`: duplicates only
the name and bootstrap flag; `m_signature` is again left uninitialized
(parameter `sigJunk`). -/
def BaseLogFile.copy (src : BaseLogFile) (sigJunk : Nat) : BaseLogFile :=
  { m_fd := -1, m_start_time := 0, m_end_time := 0, m_bytes_written := 0, m_name := src.m_name,
    m_signature := sigJunk, m_is_bootstrap := src.m_is_bootstrap, m_meta_info := none }

/-- Model of `BaseLogFile::is_open`: `m_fd >= 0`. -/
def BaseLogFile.is_open (s : BaseLogFile) : Bool := decide (0 ≤ s.m_fd)

/-- Model of `BaseLogFile::exists` as written in the source: it unconditionally
returns `false` (a stub; it never consults the filesystem). -/
def BaseLogFile.exists_ (pathname : List Char) : Bool := false

/-- Model of `BaseLogFile::rolled_logfile`: suffix comparison against
`LOGFILE_ROLLED_EXTENSION`, requiring the path to be strictly longer than
the extension. -/
def BaseLogFile.rolled_logfile (path : List Char) : Bool :=
  let target_len := LOGFILE_ROLLED_EXTENSION.length
  let len := path.length
  if len > target_len then
    decide (path.drop (len - target_len) = LOGFILE_ROLLED_EXTENSION)
  else false

/-- Model of `BaseLogFile::roll` as written in the source: it unconditionally returns
`0` and performs no rename, reopen, or state change. -/
def BaseLogFile.roll (s : BaseLogFile) (interval_start interval_end : Int) : BaseLogFile × Int :=
  (s, 0)

/-- Model of `BaseLogFile::close_file` as written in the source: a no-op stub. -/
def BaseLogFile.close_file (s : BaseLogFile) : BaseLogFile := s

/-- Model of `BaseLogFile::change_name` as written in the source: a no-op stub. -/
def BaseLogFile.change_name (s : BaseLogFile) (new_name : List Char) : BaseLogFile := s

/-- Model of `BaseLogFile::get_size_bytes` as written in the source: always `0`. -/
def BaseLogFile.get_size_bytes (s : BaseLogFile) : Nat := 0

/-- Environment of a single `BaseLogFile::open_file` call: the metafile
filesystem, the result of the OS-level `::open` on the primary log file
(`some fd` on success), the current time `time(0)`, and the end-of-file
size of the primary log file (which the code never consults). -/
structure Env where
  fs : FS
  osOpen : Option Nat
  now : Nat
  fileSize : Nat

/-- Model of `BaseLogFile::open_file`.  Returns the new handle state, the filesystem
after any metafile write, and the error code; `none` models the metafile
parser's `ink_release_assert` firing.  `m_bytes_written` is set from
`lseek(m_fd, 0, SEEK_CUR)` immediately after `::open`; per POSIX the file
offset right after `open(2)` is `0` (`O_APPEND` only affects writes), so the
model uses `0`. -/
def BaseLogFile.open_file (s : BaseLogFile) (env : Env) :
    Option (BaseLogFile × FS × Nat) :=
  if s.is_open then some (s, env.fs, LOG_FILE_NO_ERROR)
  else if s.m_name = stdoutName then some ({ s with m_fd := STDOUT_FILENO }, env.fs, LOG_FILE_NO_ERROR)
  else
    let file_exists := BaseLogFile.exists_ s.m_name
    let step : Option (BaseLogFile × FS) :=
      if file_exists then
        if s.m_meta_info = none then
          match BaseMetaInfo.mkRead s.m_name env.fs with
          | none => none
          | some mi => some ({ s with m_meta_info := some mi }, env.fs)
        else some (s, env.fs)
      else
        let mfs := BaseMetaInfo.mkWrite s.m_name env.now s.m_signature env.fs
        some ({ s with m_meta_info := some mfs.1 }, mfs.2)
    match step with
    | none => none
    | some (s1, fs1) =>
      match env.osOpen with
      | none => some ({ s1 with m_fd := -1 }, fs1, LOG_FILE_COULD_NOT_OPEN_FILE)
      | some fd => some ({ s1 with m_fd := (fd : Int), m_bytes_written := 0 }, fs1, LOG_FILE_NO_ERROR)

/-! ### Decimal rendering and parsing lemmas -/

theorem digitChar_isDigit {d : Nat} (hd : d < 10) : isDigitB (digitChar d) = true := by
  interval_cases d <;> decide

theorem digitChar_not_space {d : Nat} (hd : d < 10) : isSpaceB (digitChar d) = false := by
  interval_cases d <;> decide

theorem digitChar_charVal {d : Nat} (hd : d < 10) : charVal (digitChar d) = d := by
  interval_cases d <;> decide

theorem digitChar_ne_eq {d : Nat} (hd : d < 10) : digitChar d ≠ '=' := by
  interval_cases d <;> decide

theorem natToStrAux_eq (fuel : Nat) : ∀ (n : Nat) (acc : List Char), n ≤ fuel →
    natToStrAux fuel n acc = ((Nat.digits 10 n).reverse.map digitChar) ++ acc := by
  induction fuel with
  | zero =>
    intro n acc h
    have h0 : n = 0 := Nat.le_zero.mp h
    subst h0
    simp [natToStrAux]
  | succ fuel ih =>
    intro n acc h
    by_cases h0 : n = 0
    · subst h0
      simp [natToStrAux]
    · have hdiv : n / 10 ≤ fuel := by
        have := Nat.div_lt_self (Nat.pos_of_ne_zero h0) (by norm_num : 1 < 10)
        omega
      rw [natToStrAux, if_neg h0, ih (n / 10) _ hdiv,
        Nat.digits_def' (by norm_num : 1 < 10) (Nat.pos_of_ne_zero h0)]
      simp [List.append_assoc]

theorem natToStr_eq_digits {n : Nat} (h : n ≠ 0) :
    natToStr n = (Nat.digits 10 n).reverse.map digitChar := by
  unfold natToStr
  rw [if_neg h, natToStrAux_eq n n [] le_rfl, List.append_nil]

theorem natToStr_ne_nil (n : Nat) : natToStr n ≠ [] := by
  by_cases h : n = 0
  · subst h; decide
  · rw [natToStr_eq_digits h]
    simp [Nat.digits_ne_nil_iff_ne_zero.mpr h]

theorem natToStr_mem {n : Nat} {c : Char} (hc : c ∈ natToStr n) :
    ∃ d, d < 10 ∧ c = digitChar d := by
  by_cases h : n = 0
  · subst h
    simp [natToStr] at hc
    exact ⟨0, by norm_num, hc⟩
  · rw [natToStr_eq_digits h] at hc
    obtain ⟨d, hd, rfl⟩ := List.mem_map.mp hc
    rw [List.mem_reverse] at hd
    exact ⟨d, Nat.digits_lt_base (by norm_num) hd, rfl⟩

theorem natToStr_char_facts {n : Nat} {c : Char} (hc : c ∈ natToStr n) :
    isDigitB c = true ∧ isSpaceB c = false ∧ c ≠ '=' := by
  obtain ⟨d, hd, rfl⟩ := natToStr_mem hc
  exact ⟨digitChar_isDigit hd, digitChar_not_space hd, digitChar_ne_eq hd⟩

theorem takeWhile_all {p : Char → Bool} : ∀ (l : List Char), (∀ c ∈ l, p c = true) →
    l.takeWhile p = l := by
  intro l
  induction l with
  | nil => intro _; rfl
  | cons c cs ih =>
    intro h
    rw [List.takeWhile_cons, h c (List.mem_cons_self c cs), if_pos rfl,
      ih (fun x hx => h x (List.mem_cons_of_mem c hx))]

theorem foldl_charVal : ∀ (L : List Nat), (∀ d ∈ L, d < 10) → ∀ (a : Nat),
    L.foldl (fun x d => 10 * x + charVal (digitChar d)) a = L.foldl (fun x d => 10 * x + d) a := by
  intro L
  induction L with
  | nil => intro _ a; rfl
  | cons d ds ih =>
    intro h a
    rw [List.foldl_cons, List.foldl_cons, digitChar_charVal (h d (List.mem_cons_self d ds)),
      ih (fun x hx => h x (List.mem_cons_of_mem d hx))]

theorem foldl_base : ∀ (L : List Nat) (a : Nat),
    L.foldl (fun x d => 10 * x + d) a = a * 10 ^ L.length + Nat.ofDigits 10 L.reverse := by
  intro L
  induction L with
  | nil => intro a; simp
  | cons d ds ih =>
    intro a
    rw [List.foldl_cons, ih (10 * a + d), List.reverse_cons, Nat.ofDigits_append]
    simp [Nat.ofDigits_singleton, pow_succ]
    ring

theorem atoi_natToStr (n : Nat) : atoi (natToStr n) = n := by
  by_cases h : n = 0
  · subst h; decide
  · unfold atoi
    rw [takeWhile_all _ (fun c hc => (natToStr_char_facts hc).1), natToStr_eq_digits h,
      List.foldl_map,
      foldl_charVal _ (fun d hd => Nat.digits_lt_base (by norm_num) (List.mem_reverse.mp hd)) 0,
      foldl_base]
    simp [Nat.ofDigits_digits]

theorem natToStr_length_le {n k : Nat} (h : n < 10 ^ k) (hk : 1 ≤ k) :
    (natToStr n).length ≤ k := by
  by_cases h0 : n = 0
  · subst h0
    simpa [natToStr] using hk
  · rw [natToStr_eq_digits h0]
    simp only [List.length_map, List.length_reverse]
    rw [Nat.digits_len 10 n (by norm_num) h0]
    have := (Nat.lt_pow_iff_log_lt (by norm_num : 1 < 10) h0).mp h
    omega

/-! ### Tokenizer lemmas -/

theorem splitOnChar_ne_nil (sep : Char) : ∀ (l : List Char), splitOnChar sep l ≠ [] := by
  intro l
  cases l with
  | nil => simp [splitOnChar]
  | cons c cs =>
    rw [splitOnChar]
    rcases h : splitOnChar sep cs with _ | ⟨h1, t1⟩
    · simp
    · by_cases hc : c = sep <;> simp [hc]

theorem splitOnChar_of_not_mem {sep : Char} : ∀ {l : List Char}, sep ∉ l →
    splitOnChar sep l = [l] := by
  intro l
  induction l with
  | nil => intro _; rfl
  | cons c cs ih =>
    intro h
    have hc : ¬(c = sep) := fun e => h (by rw [e]; exact List.mem_cons_self sep cs)
    have hcs : sep ∉ cs := fun e => h (List.mem_cons_of_mem c e)
    rw [splitOnChar, ih hcs]
    simp [hc]

theorem splitOnChar_append {sep : Char} : ∀ {a : List Char} (b : List Char), sep ∉ a →
    splitOnChar sep (a ++ sep :: b) = a :: splitOnChar sep b := by
  intro a
  induction a with
  | nil =>
    intro b _
    obtain ⟨h1, t1, hEq⟩ := List.exists_cons_of_ne_nil (splitOnChar_ne_nil sep b)
    rw [List.nil_append, splitOnChar, hEq]
    simp
  | cons c a' ih =>
    intro b h
    have hc : ¬(c = sep) := fun e => h (by rw [e]; exact List.mem_cons_self sep _)
    have ha' : sep ∉ a' := fun e => h (List.mem_cons_of_mem c e)
    rw [List.cons_append, splitOnChar, ih b ha']
    simp [hc]

theorem dropWhile_cons_of_false {p : Char → Bool} {c : Char} {l : List Char}
    (h : p c = false) : List.dropWhile p (c :: l) = c :: l := by
  rw [List.dropWhile_cons, h]
  simp

theorem trim_space_digits {ds : List Char} (hne : ds ≠ [])
    (hd : ∀ c ∈ ds, isSpaceB c = false) : trim (' ' :: (ds ++ ['\n'])) = ds := by
  have hA : (' ' :: (ds ++ ['\n'])).dropWhile isSpaceB = ds ++ ['\n'] := by
    obtain ⟨c, cs, rfl⟩ := List.exists_cons_of_ne_nil hne
    rw [List.dropWhile_cons, show isSpaceB ' ' = true from by decide, if_pos rfl,
      List.cons_append, dropWhile_cons_of_false (hd c (List.mem_cons_self c cs))]
  have hB : (ds ++ ['\n']).reverse = '\n' :: ds.reverse := by
    rw [List.reverse_append]
    rfl
  have hD : ds.reverse.dropWhile isSpaceB = ds.reverse := by
    rcases List.eq_nil_or_concat ds with h0 | ⟨L, b, hLb⟩
    · exact absurd h0 hne
    · have hb : isSpaceB b = false := hd b (by rw [hLb]; simp)
      rw [hLb, List.concat_eq_append, List.reverse_append, List.reverse_singleton,
        List.singleton_append, dropWhile_cons_of_false hb]
  unfold trim
  rw [hA, hB, List.dropWhile_cons, show isSpaceB '\n' = true from by decide, if_pos rfl, hD,
    List.reverse_reverse]

theorem isEmpty_false_of_ne_nil {l : List Char} (h : l ≠ []) : l.isEmpty = false := by
  cases l with
  | nil => exact absurd rfl h
  | cons a as => rfl

theorem tokens_keyline {kraw k : List Char} (t : Nat)
    (hk : '=' ∉ kraw) (htr : trim kraw = k) (hkne : k.isEmpty = false) :
    tokens (kraw ++ '=' :: (' ' :: (natToStr t ++ ['\n']))) = [k, natToStr t] := by
  have hv : '=' ∉ ' ' :: (natToStr t ++ ['\n']) := by
    intro hm
    rcases List.mem_cons.mp hm with h | h
    · exact absurd h (by decide)
    · rcases List.mem_append.mp h with h | h
      · exact (natToStr_char_facts h).2.2 rfl
      · exact absurd (List.mem_singleton.mp h) (by decide)
  unfold tokens
  rw [splitOnChar_append _ hk, splitOnChar_of_not_mem hv, List.map_cons, List.map_cons,
    List.map_nil, htr,
    trim_space_digits (natToStr_ne_nil t) (fun c hc => (natToStr_char_facts hc).2.1)]
  simp [List.filter, hkne, isEmpty_false_of_ne_nil (natToStr_ne_nil t)]

theorem tokens_ctLine (t : Nat) : tokens (ctLine t) = ["creation_time".toList, natToStr t] := by
  have h1 : ctLine t = "creation_time ".toList ++ '=' :: (' ' :: (natToStr t ++ ['\n'])) := rfl
  rw [h1, tokens_keyline (k := "creation_time".toList) t (by decide) (by decide) (by decide)]

theorem tokens_osLine (s : Nat) : tokens (osLine s) = ["object_signature".toList, natToStr s] := by
  have h1 : osLine s = "object_signature ".toList ++ '=' :: (' ' :: (natToStr s ++ ['\n'])) := rfl
  rw [h1, tokens_keyline (k := "object_signature".toList) s (by decide) (by decide) (by decide)]

/-! ### Line-processing lemmas -/

theorem processLine_ct {m : BaseMetaInfo} {n : Nat} {line v : List Char}
    (h : tokens line = ["creation_time".toList, v]) :
    processLine m n line =
      some { m with _creation_time := atoi v, _flags := m._flags ||| VALID_CREATION_TIME } := by
  unfold processLine
  rw [h]
  simp

theorem processLine_os {m : BaseMetaInfo} {n : Nat} {line v : List Char}
    (h : tokens line = ["object_signature".toList, v]) :
    processLine m n line =
      some { m with _log_object_signature := atoi v, _flags := m._flags ||| VALID_SIGNATURE } := by
  have hne : ¬("object_signature".toList = "creation_time".toList) := by decide
  unfold processLine
  rw [h]
  simp [hne]

theorem readLoop_nil (m : BaseMetaInfo) (n : Nat) : readLoop m n [] = some m := rfl

theorem readLoop_cons (m : BaseMetaInfo) (n : Nat) (line : List Char) (rest : List (List Char)) :
    readLoop m n (line :: rest) =
      match processLine m n line with
      | none => none
      | some m' => readLoop m' (n + 1) rest := rfl

theorem read_from_file_found (m : BaseMetaInfo) (fs : FS) (lines : List (List Char))
    (h : fs m._filename = some lines) :
    read_from_file m fs =
      readLoop { m with _flags := (m._flags ||| DATA_FROM_METAFILE) ||| FILE_OPEN_SUCCESSFUL }
        1 lines := by
  unfold read_from_file
  dsimp only
  rw [h]

/-- C2: writing a `BaseMetaInfo` in write mode with creation time `T` and
signature `S` serializes exactly the two lines `creation_time = T` and
`object_signature = S` (in that order) to the sidecar path, and reading a
`BaseMetaInfo` back from the same log path recovers `T` and `S` with both
validity flags set. -/
theorem c2_metainfo_roundtrip (T S : Nat) (p : List Char) (fs : FS) :
    (BaseMetaInfo.mkWrite p T S fs).2 (build_name p) = some [ctLine T, osLine S] ∧
    ∃ m', BaseMetaInfo.mkRead p (BaseMetaInfo.mkWrite p T S fs).2 = some m' ∧
      m'.get_creation_time = some T ∧ m'.get_log_object_signature = some S := by
  have hw : (BaseMetaInfo.mkWrite p T S fs).2 (build_name p) = some [ctLine T, osLine S] := by
    unfold BaseMetaInfo.mkWrite write_to_file updateFS serializeLines
    simp [VALID_CREATION_TIME, VALID_SIGNATURE]
  refine ⟨hw, ?_⟩
  have h2 := read_from_file_found
    { _filename := build_name p, _creation_time := 0, _log_object_signature := 0, _flags := 0 }
    (BaseMetaInfo.mkWrite p T S fs).2 [ctLine T, osLine S] hw
  unfold BaseMetaInfo.mkRead
  rw [h2, readLoop_cons, processLine_ct (tokens_ctLine T)]
  dsimp only
  rw [readLoop_cons, processLine_os (tokens_osLine S)]
  dsimp only
  rw [readLoop_nil]
  refine ⟨_, rfl, ?_, ?_⟩
  · simp [BaseMetaInfo.get_creation_time, DATA_FROM_METAFILE, FILE_OPEN_SUCCESSFUL,
      VALID_CREATION_TIME, VALID_SIGNATURE, atoi_natToStr]
  · simp [BaseMetaInfo.get_log_object_signature, DATA_FROM_METAFILE, FILE_OPEN_SUCCESSFUL,
      VALID_CREATION_TIME, VALID_SIGNATURE, atoi_natToStr]

/-! ### Parser abort characterization -/

theorem processLine_none_iff (m : BaseMetaInfo) (n : Nat) (line : List Char) :
    processLine m n line = none ↔
      n = 1 ∧ ∃ t ts, tokens line = t :: ts ∧ t ≠ "creation_time".toList ∧
        t ≠ "object_signature".toList := by
  unfold processLine
  rcases h : tokens line with _ | ⟨t, rest⟩
  · simp
  · dsimp only
    by_cases hct : t = "creation_time".toList
    · subst hct
      simp only [if_pos rfl]
      rcases rest with _ | ⟨v, vs⟩ <;> simp
    · by_cases hos : t = "object_signature".toList
      · subst hos
        rw [if_neg hct, if_pos rfl]
        rcases rest with _ | ⟨v, vs⟩ <;> simp [hct]
      · rw [if_neg hct, if_neg hos]
        by_cases hn : n = 1
        · subst hn
          have h1 : (if (1 : Nat) = 1 then (none : Option BaseMetaInfo) else some m) = none := by
            simp
          rw [h1]
          exact ⟨fun _ => ⟨rfl, t, rest, rfl, hct, hos⟩, fun _ => rfl⟩
        · simp [hn]

theorem readLoop_ne_none_of_two_le : ∀ (lines : List (List Char)) (m : BaseMetaInfo) (n : Nat),
    2 ≤ n → readLoop m n lines ≠ none := by
  intro lines
  induction lines with
  | nil => intro m n _ h; exact Option.noConfusion h
  | cons line rest ih =>
    intro m n hn
    rw [readLoop_cons]
    rcases h : processLine m n line with _ | m'
    · have := (processLine_none_iff m n line).mp h
      omega
    · exact ih m' (n + 1) (by omega)

theorem readLoop_one_none_iff (m : BaseMetaInfo) (lines : List (List Char)) :
    readLoop m 1 lines = none ↔
      ∃ l rest t ts, lines = l :: rest ∧ tokens l = t :: ts ∧
        t ≠ "creation_time".toList ∧ t ≠ "object_signature".toList := by
  rcases lines with _ | ⟨l, rest⟩
  · simp [readLoop_nil]
  · rw [readLoop_cons]
    rcases h : processLine m 1 l with _ | m'
    · obtain ⟨-, t, ts, htok, h1, h2⟩ := (processLine_none_iff m 1 l).mp h
      simp only [true_iff]
      exact ⟨l, rest, t, ts, rfl, htok, h1, h2⟩
    · have hne := readLoop_ne_none_of_two_le rest m' 2 le_rfl
      simp only [hne, false_iff]
      rintro ⟨l', rest', t, ts, hEq, htok, h1, h2⟩
      injection hEq with e1 e2
      subst e1
      have hnone : processLine m 1 l = none :=
        (processLine_none_iff m 1 l).mpr ⟨rfl, t, ts, htok, h1, h2⟩
      rw [h] at hnone
      exact Option.noConfusion hnone

/-- Filesystem holding a metafile whose first line is blank, followed by
valid `key = value` lines. -/
def fsBlankC5 : FS := updateFS emptyFS (build_name "x".toList) [['\n'], ctLine 5, osLine 7]

/-- An arbitrary concrete `BaseMetaInfo` state. -/
def mC5w : BaseMetaInfo :=
  { _filename := [], _creation_time := 0, _log_object_signature := 0, _flags := 0 }

/-- C5: the metafile parser fires its unrecoverable assertion exactly when
the first line's first token is neither `creation_time` nor
`object_signature`; lines without tokens and lines with a recognized key but
no value are skipped; unrecognized keys on lines after the first are
silently ignored; and a metafile whose first line is blank followed by valid
`key = value` lines parses the valid lines without aborting. -/
theorem c5_parse_characterization :
    (∀ (m : BaseMetaInfo) (lines : List (List Char)),
        readLoop m 1 lines = none ↔
          ∃ l rest t ts, lines = l :: rest ∧ tokens l = t :: ts ∧
            t ≠ "creation_time".toList ∧ t ≠ "object_signature".toList) ∧
    (∀ (m : BaseMetaInfo) (n : Nat) (line t : List Char) (ts : List (List Char)),
        2 ≤ n → tokens line = t :: ts → t ≠ "creation_time".toList →
          t ≠ "object_signature".toList → processLine m n line = some m) ∧
    (∀ (m : BaseMetaInfo) (n : Nat) (line t : List Char),
        tokens line = [t] →
          t = "creation_time".toList ∨ t = "object_signature".toList →
          processLine m n line = some m) ∧
    (∀ (m : BaseMetaInfo) (n : Nat) (line : List Char),
        tokens line = [] → processLine m n line = some m) ∧
    (∃ m', BaseMetaInfo.mkRead "x".toList fsBlankC5 = some m' ∧
      m'.get_creation_time = some 5 ∧ m'.get_log_object_signature = some 7) := by
  refine ⟨fun m lines => readLoop_one_none_iff m lines, ?_, ?_, ?_, ?_⟩
  · intro m n line t ts hn htok h1 h2
    unfold processLine
    rw [htok]
    dsimp only
    rw [if_neg h1, if_neg h2, if_neg (by omega : ¬n = 1)]
  · intro m n line t htok hkey
    unfold processLine
    rw [htok]
    dsimp only
    rcases hkey with rfl | rfl
    · rw [if_pos rfl]
    · rw [if_neg (by decide), if_pos rfl]
  · intro m n line htok
    unfold processLine
    rw [htok]
  · exact ⟨⟨build_name "x".toList, 5, 7, 15⟩, by decide, by decide, by decide⟩

/-- Witness for C5: an unrecognized key on line 2 is silently ignored. -/
theorem c5_parse_characterization_witness :
    processLine mC5w 2 "bogus = 1".toList = some mC5w :=
  c5_parse_characterization.2.1 mC5w 2 "bogus = 1".toList "bogus".toList [['1']]
    (by norm_num) (by decide) (by decide) (by decide)

/-! ### Sidecar-name derivation -/

theorem lastSlashAux_no_slash : ∀ {p : List Char} (l : Nat) (acc : Option Nat),
    '/' ∉ p → lastSlashAux p l acc = acc := by
  intro p
  induction p with
  | nil => intro l acc _; rfl
  | cons c cs ih =>
    intro l acc h
    have hc : ¬(c = '/') := fun e => h (by rw [← e]; exact List.mem_cons_self c cs)
    rw [lastSlashAux, if_neg hc, ih (l + 1) acc (fun e => h (List.mem_cons_of_mem c e))]

theorem lastSlashAux_append {p : List Char} (hp : '/' ∉ p) :
    ∀ (dir : List Char) (l : Nat) (acc : Option Nat),
      lastSlashAux (dir ++ '/' :: p) l acc = some (l + dir.length) := by
  intro dir
  induction dir with
  | nil =>
    intro l acc
    rw [List.nil_append, lastSlashAux, if_pos rfl, lastSlashAux_no_slash (l + 1) (some l) hp]
    simp
  | cons c d ih =>
    intro l acc
    rw [List.cons_append, lastSlashAux, ih (l + 1)]
    simp only [List.length_cons]
    congr 1
    omega

/-- C6: for a path with no directory separator the sidecar name is
`"." + path + ".meta"`; for a path `dir/p` whose final component `p` has no
separator, it is `dir/.p.meta` (the dot inserted before the final component,
the directory prefix preserved). -/
theorem c6_build_name :
    (∀ p : List Char, '/' ∉ p → build_name p = '.' :: (p ++ ".meta".toList)) ∧
    (∀ (dir p : List Char), '/' ∉ p →
      build_name (dir ++ '/' :: p) = (dir ++ ['/']) ++ ('.' :: (p ++ ".meta".toList))) := by
  constructor
  · intro p hp
    unfold build_name lastSlash
    rw [lastSlashAux_no_slash 0 none hp]
  · intro dir p hp
    unfold build_name lastSlash
    rw [lastSlashAux_append hp dir 0 none]
    dsimp only
    have hsplit : dir ++ '/' :: p = (dir ++ ['/']) ++ p := by simp
    have hlen : (dir ++ ['/']).length = 0 + dir.length + 1 := by simp
    rw [hsplit, ← hlen, List.take_left, List.drop_left]

/-- Witness for C6: concrete sidecar names for `charlie` and `dir/charlie`. -/
theorem c6_build_name_witness :
    build_name "charlie".toList = ".charlie.meta".toList ∧
    build_name "dir/charlie".toList = "dir/.charlie.meta".toList := by
  constructor
  · rw [c6_build_name.1 "charlie".toList (by decide)]
    decide
  · have h := c6_build_name.2 "dir".toList "charlie".toList (by decide)
    rw [show "dir/charlie".toList = "dir".toList ++ '/' :: "charlie".toList from rfl, h]
    decide

/-! ### Rolled-logfile detection -/

/-- Counterexample for C7: the path `".old"` ends with the rolled-file
extension, yet `rolled_logfile` returns `false` for it (the code requires
the path to be strictly longer than the extension). -/
theorem c7_counterexample :
    BaseLogFile.rolled_logfile ".old".toList = false ∧
    LOGFILE_ROLLED_EXTENSION.isSuffixOf ".old".toList = true := by
  constructor
  · decide
  · decide

/-- C7 (amended): `rolled_logfile path` is `true` iff `path` ends with
`".old"` and is strictly longer than `".old"`; in particular it is `false`
for paths ending in `".old2"`, for paths shorter than the extension, and for
paths not ending in the extension. -/
theorem c7_amended :
    (∀ path : List Char, BaseLogFile.rolled_logfile path = true ↔
      (LOGFILE_ROLLED_EXTENSION.isSuffixOf path = true ∧
        LOGFILE_ROLLED_EXTENSION.length < path.length)) ∧
    BaseLogFile.rolled_logfile "x.old2".toList = false ∧
    BaseLogFile.rolled_logfile "ld".toList = false ∧
    BaseLogFile.rolled_logfile "x.txt".toList = false ∧
    BaseLogFile.rolled_logfile "x.old".toList = true := by
  refine ⟨?_, by decide, by decide, by decide, by decide⟩
  intro path
  unfold BaseLogFile.rolled_logfile
  rw [List.isSuffixOf_iff_suffix]
  by_cases hlen : path.length > LOGFILE_ROLLED_EXTENSION.length
  · rw [if_pos hlen]
    simp only [decide_eq_true_eq]
    constructor
    · intro hdrop
      refine ⟨⟨path.take (path.length - LOGFILE_ROLLED_EXTENSION.length), ?_⟩, hlen⟩
      have htad := List.take_append_drop (path.length - LOGFILE_ROLLED_EXTENSION.length) path
      rw [hdrop] at htad
      exact htad
    · rintro ⟨⟨t, ht⟩, -⟩
      have hL : path.length - LOGFILE_ROLLED_EXTENSION.length = t.length := by
        rw [← ht]
        simp
      rw [hL, ← ht, List.drop_left]
  · rw [if_neg hlen]
    simp only [Bool.false_eq_true, false_iff]
    rintro ⟨-, hcon⟩
    omega

/-! ### Metafile line lengths -/

/-- C10: for any creation time and signature representable as unsigned
64-bit values, the serialized `creation_time = <n>\n` and
`object_signature = <n>\n` lines are at most `BUF_SIZE` (640) characters, so
the release assertions `n <= BUF_SIZE` in `BaseMetaInfo::_write_to_file`
cannot fire. -/
theorem c10_meta_lines_fit (T S : Nat) (hT : T < 2 ^ 64) (hS : S < 2 ^ 64) :
    (ctLine T).length ≤ BUF_SIZE ∧ (osLine S).length ≤ BUF_SIZE := by
  have hT20 : (natToStr T).length ≤ 20 :=
    natToStr_length_le (lt_of_lt_of_le hT (by norm_num)) (by norm_num)
  have hS20 : (natToStr S).length ≤ 20 :=
    natToStr_length_le (lt_of_lt_of_le hS (by norm_num)) (by norm_num)
  constructor
  · unfold ctLine BUF_SIZE
    simp only [List.length_append, List.length_cons, List.length_nil]
    have : ("creation_time = ".toList).length = 16 := by decide
    omega
  · unfold osLine BUF_SIZE
    simp only [List.length_append, List.length_cons, List.length_nil]
    have : ("object_signature = ".toList).length = 19 := by decide
    omega

/-- Witness for C10: the bound instantiated at `T = S = 0`. -/
theorem c10_meta_lines_fit_witness :
    (0 : Nat) < 2 ^ 64 ∧ ((ctLine 0).length ≤ BUF_SIZE ∧ (osLine 0).length ≤ BUF_SIZE) :=
  ⟨by norm_num, c10_meta_lines_fit 0 0 (by norm_num) (by norm_num)⟩

/-! ### The roll stub -/

/-- C3: `BaseLogFile::roll` as implemented never rolls: for every handle
state and every interval it returns `0` (no roll occurred) and leaves the
handle, the file, and the filesystem untouched — it performs no rename and
no reopen, contradicting its own documentation comment. -/
theorem c3_roll_never_rolls (s : BaseLogFile) (interval_start interval_end : Int) :
    BaseLogFile.roll s interval_start interval_end = (s, 0) := rfl

/-! ### open_file behavior -/

theorem open_file_write_branch (s : BaseLogFile) (env : Env)
    (hcl : s.is_open = false) (hn : ¬(s.m_name = stdoutName)) :
    BaseLogFile.open_file s env =
      match env.osOpen with
      | none => some ({ s with
          m_meta_info := some (BaseMetaInfo.mkWrite s.m_name env.now s.m_signature env.fs).1,
          m_fd := -1 }, (BaseMetaInfo.mkWrite s.m_name env.now s.m_signature env.fs).2,
          LOG_FILE_COULD_NOT_OPEN_FILE)
      | some fd => some ({ s with
          m_meta_info := some (BaseMetaInfo.mkWrite s.m_name env.now s.m_signature env.fs).1,
          m_fd := (fd : Int), m_bytes_written := 0 },
          (BaseMetaInfo.mkWrite s.m_name env.now s.m_signature env.fs).2,
          LOG_FILE_NO_ERROR) := by
  unfold BaseLogFile.open_file
  rw [hcl, if_neg (show ¬(false = true) from by decide), if_neg hn]
  dsimp only [BaseLogFile.exists_]
  rw [if_neg (show ¬(false = true) from by decide)]

/-- Fresh handle on path `b.log` with (indeterminate) signature `7`. -/
def sC4 : BaseLogFile := BaseLogFile.mkNew "b.log".toList false 7

/-- Environment in which the OS-level `::open` of the log file fails. -/
def envC4 : Env := { fs := emptyFS, osOpen := none, now := 50, fileSize := 0 }

/-- The metafile object written by the failing `open_file` call on `sC4`. -/
def metaC4 : BaseMetaInfo := (BaseMetaInfo.mkWrite "b.log".toList 50 7 emptyFS).1

/-- The filesystem after the failing `open_file` call on `sC4`. -/
def fsC4 : FS := (BaseMetaInfo.mkWrite "b.log".toList 50 7 emptyFS).2

/-- The handle state after the failing `open_file` call on `sC4`. -/
def stateC4 : BaseLogFile :=
  { m_fd := -1, m_start_time := 0, m_end_time := 0, m_bytes_written := 0,
    m_name := "b.log".toList, m_signature := 7, m_is_bootstrap := false,
    m_meta_info := some metaC4 }

/-- Counterexample for C4: a fresh handle whose single `open_file` call fails
at the OS level nevertheless ends up with a non-null `m_meta_info` (the
write-mode `BaseMetaInfo` is allocated before the `::open` attempt). -/
theorem c4_counterexample :
    sC4.m_meta_info = none ∧
    BaseLogFile.open_file sC4 envC4 = some (stateC4, fsC4, LOG_FILE_COULD_NOT_OPEN_FILE) ∧
    BaseLogFile.is_open stateC4 = false ∧ stateC4.m_meta_info ≠ none := by
  refine ⟨rfl, rfl, rfl, ?_⟩
  simp [stateC4]

/-- C4 (amended): the descriptor is valid iff `is_open` reports true; a
freshly constructed or copied handle is closed with null `metaInfo`; and any
`open_file` call that reaches the filesystem path (handle closed, name not
the stdout sentinel) leaves `metaInfo` non-null whether or not the OS-level
open succeeds. -/
theorem c4_amended :
    (∀ s : BaseLogFile, s.is_open = true ↔ 0 ≤ s.m_fd) ∧
    (∀ (name : List Char) (boot : Bool) (sig : Nat),
      (BaseLogFile.mkNew name boot sig).m_meta_info = none ∧
        (BaseLogFile.mkNew name boot sig).is_open = false) ∧
    (∀ (s : BaseLogFile) (sig : Nat),
      (s.copy sig).m_meta_info = none ∧ (s.copy sig).is_open = false) ∧
    (∀ (s : BaseLogFile) (env : Env) (r : BaseLogFile × FS × Nat),
      s.is_open = false → s.m_name ≠ stdoutName → BaseLogFile.open_file s env = some r →
        r.1.m_meta_info ≠ none) := by
  refine ⟨?_, ?_, ?_, ?_⟩
  · intro s
    simp [BaseLogFile.is_open]
  · intro name boot sig
    exact ⟨rfl, rfl⟩
  · intro s sig
    exact ⟨rfl, rfl⟩
  · intro s env r hcl hn hopen
    rw [open_file_write_branch s env hcl hn] at hopen
    rcases henv : env.osOpen with _ | fd <;> rw [henv] at hopen <;>
      obtain rfl := (Option.some.inj hopen).symm <;> simp

/-- Witness for C4 (amended): the filesystem-branch fact applied to the
concrete failing call on `sC4`. -/
theorem c4_amended_witness : stateC4.m_meta_info ≠ none :=
  c4_amended.2.2.2 sC4 envC4 (stateC4, fsC4, LOG_FILE_COULD_NOT_OPEN_FILE) rfl (by decide) rfl

/-- C8: whenever `open_file` reaches the OS-level `::open` (handle closed,
name not the stdout sentinel) and that open fails, it returns the distinct
error value `LOG_FILE_COULD_NOT_OPEN_FILE` (no abort) and the handle remains
closed. -/
theorem c8_open_failure (s : BaseLogFile) (env : Env)
    (hcl : s.is_open = false) (hn : s.m_name ≠ stdoutName) (hos : env.osOpen = none) :
    LOG_FILE_COULD_NOT_OPEN_FILE ≠ LOG_FILE_NO_ERROR ∧
    ∃ s' fs', BaseLogFile.open_file s env = some (s', fs', LOG_FILE_COULD_NOT_OPEN_FILE) ∧
      s'.is_open = false := by
  refine ⟨by decide, ?_⟩
  rw [open_file_write_branch s env hcl hn, hos]
  exact ⟨_, _, rfl, rfl⟩

/-- Witness for C8: the failure behavior at the concrete handle `sC4` and
environment `envC4`. -/
theorem c8_open_failure_witness :
    LOG_FILE_COULD_NOT_OPEN_FILE ≠ LOG_FILE_NO_ERROR ∧
    ∃ s' fs', BaseLogFile.open_file sC4 envC4 = some (s', fs', LOG_FILE_COULD_NOT_OPEN_FILE) ∧
      s'.is_open = false :=
  c8_open_failure sC4 envC4 rfl (by decide) rfl

/-- A filesystem holding a previously written sidecar for `a.log` recording
creation time `123`. -/
def fsC1 : FS := updateFS emptyFS (build_name "a.log".toList) [ctLine 123]

/-- Fresh handle on the pre-existing log path `a.log` (indeterminate
signature `55`). -/
def sC1 : BaseLogFile := BaseLogFile.mkNew "a.log".toList false 55

/-- Environment for reopening `a.log`: the log file exists (100 bytes), its
sidecar holds creation time `123`, the OS open succeeds with fd `3`, and the
current time is `999`. -/
def envC1 : Env := { fs := fsC1, osOpen := some 3, now := 999, fileSize := 100 }

/-- The metafile object `open_file` actually builds for `sC1` (write mode). -/
def metaC1 : BaseMetaInfo := (BaseMetaInfo.mkWrite "a.log".toList 999 55 fsC1).1

/-- The filesystem after `open_file` on `sC1`. -/
def fsC1after : FS := (BaseMetaInfo.mkWrite "a.log".toList 999 55 fsC1).2

/-- The handle state after `open_file` on `sC1`. -/
def stateC1 : BaseLogFile :=
  { m_fd := 3, m_start_time := 0, m_end_time := 0, m_bytes_written := 0,
    m_name := "a.log".toList, m_signature := 55, m_is_bootstrap := false,
    m_meta_info := some metaC1 }

/-- C1 evaluation: `BaseLogFile::exists` always reports `false`, so reopening
the pre-existing path `a.log` takes the write branch: the new handle's
metafile store is built in write mode (`data_from_metafile = false`), records
the current time `999` instead of the sidecar's original `123`, and the
sidecar on disk is overwritten. -/
theorem c1_reopen_takes_write_branch :
    (∀ p : List Char, BaseLogFile.exists_ p = false) ∧
    fsC1 (build_name "a.log".toList) = some [ctLine 123] ∧
    BaseLogFile.open_file sC1 envC1 = some (stateC1, fsC1after, LOG_FILE_NO_ERROR) ∧
    metaC1.data_from_metafile = false ∧
    metaC1.get_creation_time = some 999 ∧
    metaC1.get_creation_time ≠ some 123 ∧
    fsC1after (build_name "a.log".toList) = some [ctLine 999, osLine 55] := by
  refine ⟨fun p => rfl, by decide, rfl, by decide, by decide, by decide, by decide⟩

/-- Fresh handle on the path `c.log` (indeterminate signature `9`). -/
def sC9 : BaseLogFile := BaseLogFile.mkNew "c.log".toList false 9

/-- Environment for C9: the pre-existing log file has end-of-file offset
`100`, the OS open succeeds with fd `4`. -/
def envC9 : Env := { fs := emptyFS, osOpen := some 4, now := 77, fileSize := 100 }

/-- The handle state after a successful `open_file` on `sC9`. -/
def stateC9 : BaseLogFile :=
  { m_fd := 4, m_start_time := 0, m_end_time := 0, m_bytes_written := 0,
    m_name := "c.log".toList, m_signature := 9, m_is_bootstrap := false,
    m_meta_info := some (BaseMetaInfo.mkWrite "c.log".toList 77 9 emptyFS).1 }

/-- C9 evaluation: after a successful `open_file` on a pre-existing 100-byte
file, `m_bytes_written` is `0` (the `lseek(fd, 0, SEEK_CUR)` offset right
after `open(2)`), not the end-of-file offset `100`. -/
theorem c9_bytes_written_zero :
    BaseLogFile.open_file sC9 envC9 =
      some (stateC9, (BaseMetaInfo.mkWrite "c.log".toList 77 9 emptyFS).2, LOG_FILE_NO_ERROR) ∧
    stateC9.m_bytes_written = 0 ∧ envC9.fileSize = 100 ∧
    stateC9.m_bytes_written ≠ envC9.fileSize := by
  refine ⟨rfl, rfl, rfl, by decide⟩

/-- Witness for C2: the round-trip instantiated at time `123` and signature
`7` on the path `w.log` over the empty filesystem. -/
theorem c2_metainfo_roundtrip_witness :
    (BaseMetaInfo.mkWrite "w.log".toList 123 7 emptyFS).2 (build_name "w.log".toList) =
      some [ctLine 123, osLine 7] ∧
    ∃ m', BaseMetaInfo.mkRead "w.log".toList (BaseMetaInfo.mkWrite "w.log".toList 123 7 emptyFS).2 =
      some m' ∧ m'.get_creation_time = some 123 ∧ m'.get_log_object_signature = some 7 :=
  c2_metainfo_roundtrip 123 7 "w.log".toList emptyFS

/-- Witness for C7 (amended): the characterization instantiated at the
path `.x.old`. -/
theorem c7_amended_witness :
    BaseLogFile.rolled_logfile ".x.old".toList = true ↔
      (LOGFILE_ROLLED_EXTENSION.isSuffixOf ".x.old".toList = true ∧
        LOGFILE_ROLLED_EXTENSION.length < ".x.old".toList.length) :=
  c7_amended.1 ".x.old".toList
